import Mathlib

/-!
# Verification of the JNI inference shim `llama-android.cpp`

The repository consists of a single C++ file bridging a Java class
(`com.example.lifequest.ai.LlamaInference`) to the llama.cpp inference
library.  The three exported functions are straight-line glue code: every
interesting computation is a call into the external library.

We embed the shim shallowly.  The behaviour of the external library and of
the JNI runtime at each call site is supplied by an *environment* record
(one field per library call whose result the shim branches on, and
per-iteration oracles for the generation loop).  Each embedded entry point
returns the value the C function returns together with the list of
library/JNI calls it performed, in program order, so that sequencing and
resource-release claims can be stated as facts about the trace.

Pointers are modelled as abstract identifiers (`Ptr := Nat`) wrapped in
`Option`: `none` is the C null pointer.  Logging (`__android_log_print`)
and the purely informational calls made only to build log messages
(`fseek`/`ftell`/`fclose` for the file size, the `llama_n_ctx`/
`llama_n_batch` pair printed right after context recreation, and
`llama_batch_get_one`, which in llama.cpp is a plain struct constructor)
are elided from the trace; every call whose result the code inspects, and
every resource acquisition or release, is an event.
-/

namespace LlamaAndroid

/-- An abstract pointer identity for a live library object.  The C null
pointer is represented by `none : Option Ptr`. -/
abbrev Ptr := Nat

/-- Embedding of `struct LlamaWrapper` (llama-android.cpp lines 19-23):
the opaque handle returned by `nativeInit` holds a model, a context and a
sampler, any of which may be null. -/
structure LlamaWrapper where
  model : Option Ptr
  ctx : Option Ptr
  sampler : Option Ptr
deriving Repr, DecidableEq

/-- One library or JNI-marshalling call made by the shim, in program
order.  Constructors carry the arguments the claims talk about. -/
inductive Event where
  | fopenCall (ok : Bool)
  | releasePathString
  | backendInitCall
  | modelLoadCall (nGpuLayers : Nat) (useMmap useMlock : Bool)
  | modelFreeCall (m : Ptr)
  | backendFreeCall
  | ctxCreateCall (nCtx nBatch nThreads nThreadsBatch : Nat)
  | samplerChainInitCall
  | samplerAddTemp
  | samplerAddTopK
  | samplerAddTopP
  | samplerAddDist
  | ctxFreeCall (c : Ptr)
  | newCtxCall (nCtx nBatch nThreads nThreadsBatch : Nat)
  | getPromptString
  | releasePromptString
  | getVocabCall (m : Ptr)
  | tokenizeCall (fill : Bool)
  | nCtxQueryCall (c : Ptr)
  | decodeCall (c : Ptr)
  | sampleCall (s : Option Ptr) (c : Ptr)
  | isEogCall (tok : Int)
  | tokenToPieceCall (tok : Int)
  | samplerFreeCall (s : Ptr)
  | deleteWrapper
deriving Repr, DecidableEq

/-- Classifies the events that are calls into the inference library, as
opposed to file-system probing or JNI string marshalling. -/
def Event.isLibCall : Event → Bool
  | .fopenCall _ => false
  | .releasePathString => false
  | .getPromptString => false
  | .releasePromptString => false
  | .deleteWrapper => false
  | _ => true

/-- Classifies the four events the generation loop body can emit. -/
def Event.loopKind : Event → Bool
  | .sampleCall _ _ => true
  | .isEogCall _ => true
  | .tokenToPieceCall _ => true
  | .decodeCall _ => true
  | _ => false

/-- Environment for `nativeInit`: the outcome of each fallible call the
function makes (llama-android.cpp lines 25-147). -/
structure InitEnv where
  fopenOk : Bool
  loadedModel : Option Ptr
  createdCtx : Option Ptr
  createdSampler : Ptr

/-- Result of `nativeInit`: the returned handle (`none` embeds the jlong
0) and the trace of calls performed. -/
structure InitOut where
  handle : Option LlamaWrapper
  events : List Event
deriving Repr, DecidableEq

/-- Embedding of `Java_com_example_lifequest_ai_LlamaInference_nativeInit`
(llama-android.cpp lines 25-147).  The code opens the model file to check
existence, initialises the backend, loads the model with
`n_gpu_layers = 0`, `use_mmap = true`, `use_mlock = false` (releasing the
path string right after the load, line 80), creates a context with
`n_ctx = 2048`, `n_batch = 512`, `n_threads = n_threads_batch = 4`, builds
the sampler chain (temp, top-k, top-p, dist), and returns a freshly
allocated wrapper.  On a failed fopen it returns 0 after releasing the
path; on a failed load it frees the backend; on a failed context creation
it frees the model and the backend.  The result of
`llama_sampler_chain_init` is used unchecked, so the environment supplies
it as a plain identifier. -/
def nativeInit (env : InitEnv) : InitOut :=
  if !env.fopenOk then
    { handle := none, events := [.fopenCall false, .releasePathString] }
  else
    match env.loadedModel with
    | none =>
      { handle := none
        events := [.fopenCall true, .backendInitCall, .modelLoadCall 0 true false,
                   .releasePathString, .backendFreeCall] }
    | some m =>
      match env.createdCtx with
      | none =>
        { handle := none
          events := [.fopenCall true, .backendInitCall, .modelLoadCall 0 true false,
                     .releasePathString, .ctxCreateCall 2048 512 4 4,
                     .modelFreeCall m, .backendFreeCall] }
      | some c =>
        { handle := some ⟨some m, some c, some env.createdSampler⟩
          events := [.fopenCall true, .backendInitCall, .modelLoadCall 0 true false,
                     .releasePathString, .ctxCreateCall 2048 512 4 4,
                     .samplerChainInitCall, .samplerAddTemp, .samplerAddTopK,
                     .samplerAddTopP, .samplerAddDist] }

/-- The literal placeholder string returned when context recreation fails
inside `nativeGenerate` (llama-android.cpp line 195). -/
def ctxFailMsg : String := "上下文重建失败"

/-- Environment for `nativeGenerate`: outcomes of each call the function
branches on.  The generation loop's library calls are oracles indexed by
the loop counter `i`: the sampled token, whether it is end-of-generation,
the `llama_token_to_piece` return value and the bytes it wrote, and the
`llama_decode` return value for that token. -/
structure GenEnv where
  newCtx : Option Ptr
  promptOk : Bool
  vocab : Option Ptr
  tokenizeLenRet : Int
  nCtxVal : Int
  decodePromptRet : Int
  sampleTok : Nat → Int
  eog : Int → Bool
  pieceRet : Nat → Int
  pieceStr : Nat → String
  decodeTokRet : Nat → Int

/-- Result of the generation loop: the accumulated text, the final value
of `n_decoded`, and the trace of loop-body calls. -/
structure LoopOut where
  text : String
  nDecoded : Nat
  events : List Event
deriving Repr, DecidableEq

/-- Embedding of the generation loop (llama-android.cpp lines 349-386),
`for (int i = 0; i < max_tokens; i++)`, as structural recursion on the
remaining iteration count.  Each iteration samples a token; on an
end-of-generation token it breaks; a negative `llama_token_to_piece`
return breaks without appending; otherwise the piece is appended when its
length is positive, the token is decoded, a non-zero decode return breaks
(after the append), and `n_decoded` is incremented only on a successful
decode. -/
def genLoopGo (env : GenEnv) (s : Option Ptr) (c : Ptr) :
    Nat → Nat → String → Nat → List Event → LoopOut
  | 0, _, acc, nd, evs => ⟨acc, nd, evs⟩
  | fuel + 1, i, acc, nd, evs =>
    let tok := env.sampleTok i
    if env.eog tok then
      ⟨acc, nd, evs ++ [.sampleCall s c, .isEogCall tok]⟩
    else
      let n := env.pieceRet i
      if n < 0 then
        ⟨acc, nd, evs ++ [.sampleCall s c, .isEogCall tok, .tokenToPieceCall tok]⟩
      else
        let acc2 := if 0 < n then acc ++ env.pieceStr i else acc
        if env.decodeTokRet i ≠ 0 then
          ⟨acc2, nd,
           evs ++ [.sampleCall s c, .isEogCall tok, .tokenToPieceCall tok, .decodeCall c]⟩
        else
          genLoopGo env s c fuel (i + 1) acc2 (nd + 1)
            (evs ++ [.sampleCall s c, .isEogCall tok, .tokenToPieceCall tok, .decodeCall c])

/-- Result of `nativeGenerate`: the returned jstring, the wrapper state on
return (the function mutates `wrapper->ctx`), the effective `max_tokens`
bound in force when the loop is reached (the argument itself on paths that
fail before the adjustment point), the number of tokens decoded, and the
trace. -/
structure GenOut where
  result : String
  wrapper : Option LlamaWrapper
  effMax : Int
  nDecoded : Nat
  events : List Event

/-- Embedding of `nativeGenerate` after the context has been successfully
recreated (llama-android.cpp lines 201-419): fetch the prompt string, the
vocab, probe the tokenization length (`n_prompt_tokens` is the negated
`llama_tokenize` return, line 226), clamp `max_tokens` to
`n_ctx - n_prompt_tokens - 10` when `n_prompt_tokens + max_tokens`
exceeds `llama_n_ctx` (lines 249-254), tokenize for real (the result is
only logged, lines 261-275), decode the prompt, and run the generation
loop.  `w` is the wrapper already holding the fresh context `c`. -/
def genAfterCtx (env : GenEnv) (w : LlamaWrapper) (m c : Ptr) (maxT : Int) : GenOut :=
  if env.promptOk = false then
    ⟨"", some w, maxT, 0, [.getPromptString]⟩
  else
    match env.vocab with
    | none =>
      ⟨"", some w, maxT, 0, [.getPromptString, .getVocabCall m, .releasePromptString]⟩
    | some _ =>
      let nPrompt : Int := -env.tokenizeLenRet
      if nPrompt ≤ 0 then
        ⟨"", some w, maxT, 0,
         [.getPromptString, .getVocabCall m, .tokenizeCall false, .releasePromptString]⟩
      else
        let nCtx := env.nCtxVal
        let maxT2 := if nCtx < nPrompt + maxT then nCtx - nPrompt - 10 else maxT
        let evs : List Event :=
          [.getPromptString, .getVocabCall m, .tokenizeCall false, .nCtxQueryCall c,
           .tokenizeCall true, .releasePromptString, .decodeCall c]
        if env.decodePromptRet ≠ 0 then
          ⟨"", some w, maxT2, 0, evs⟩
        else
          let lp := genLoopGo env w.sampler c maxT2.toNat 0 "" 0 []
          ⟨lp.text, some w, maxT2, lp.nDecoded, evs ++ lp.events⟩

/-- Embedding of
`Java_com_example_lifequest_ai_LlamaInference_nativeGenerate`
(llama-android.cpp lines 149-420).  A null handle or a null
`wrapper->model` returns the empty string before any library call.
Otherwise the context is recreated unconditionally: the old context (if
any) is freed, and `llama_new_context_with_model` is called with
`n_ctx = 2048`, `n_batch = 512`, `n_threads = n_threads_batch = 4`
(lines 177-196); if it returns null the placeholder `ctxFailMsg` is
returned.  The rest is `genAfterCtx`.  In the C code the fields nulled or
assigned on `wrapper` persist across the call; the returned `wrapper`
field records that final state. -/
def nativeGenerate (env : GenEnv) (handle : Option LlamaWrapper) (maxT : Int) : GenOut :=
  match handle with
  | none => ⟨"", none, maxT, 0, []⟩
  | some w =>
    match w.model with
    | none => ⟨"", some w, maxT, 0, []⟩
    | some m =>
      let freeEvs : List Event :=
        match w.ctx with
        | some c => [.ctxFreeCall c]
        | none => []
      match env.newCtx with
      | none =>
        ⟨ctxFailMsg, some { w with ctx := none }, maxT, 0,
         freeEvs ++ [.newCtxCall 2048 512 4 4]⟩
      | some c =>
        let o := genAfterCtx env { w with ctx := some c } m c maxT
        { o with events := freeEvs ++ .newCtxCall 2048 512 4 4 :: o.events }

/-- Embedding of
`Java_com_example_lifequest_ai_LlamaInference_nativeDestroy`
(llama-android.cpp lines 422-450): a null handle returns immediately;
otherwise the sampler, context and model are each freed only when
non-null (the C code also nulls each field right before `delete wrapper`,
which has no observable effect), then the wrapper is deleted and the
backend freed. -/
def nativeDestroy (handle : Option LlamaWrapper) : List Event :=
  match handle with
  | none => []
  | some w =>
    (match w.sampler with | some s => [Event.samplerFreeCall s] | none => []) ++
    (match w.ctx with | some c => [Event.ctxFreeCall c] | none => []) ++
    (match w.model with | some m => [Event.modelFreeCall m] | none => []) ++
    [Event.deleteWrapper, Event.backendFreeCall]

/-- The three exported entry points of the shim: the file contains exactly
three `extern "C" JNIEXPORT` definitions (lines 25, 149, 422). -/
inductive EntryPoint where
  | init
  | generate
  | destroy
deriving Repr, DecidableEq

/-- Concatenation of a list of strings, used to state that the generated
text is exactly a concatenation of library-produced pieces. -/
def sconcat : List String → String
  | [] => ""
  | s :: rest => s ++ sconcat rest

/-! ## Helper lemmas about the generation loop and `genAfterCtx` -/

/-- The loop increments `n_decoded` at most once per iteration. -/
theorem genLoopGo_nDecoded_le (env : GenEnv) (s : Option Ptr) (c : Ptr) :
    ∀ (fuel i : Nat) (acc : String) (nd : Nat) (evs : List Event),
      (genLoopGo env s c fuel i acc nd evs).nDecoded ≤ nd + fuel := by
  intro fuel
  induction fuel with
  | zero => intro i acc nd evs; simp [genLoopGo]
  | succ n ih =>
    intro i acc nd evs
    simp only [genLoopGo]
    split
    · simp
    · split
      · simp
      · split
        · simp
        · exact le_trans (ih (i + 1) _ (nd + 1) _) (by omega)

/-- The loop only appends sample, end-of-generation, token-to-piece and
decode events to the trace it is given. -/
theorem genLoopGo_events_shape (env : GenEnv) (s : Option Ptr) (c : Ptr) :
    ∀ (fuel i : Nat) (acc : String) (nd : Nat) (evs : List Event),
      ∃ extra, (genLoopGo env s c fuel i acc nd evs).events = evs ++ extra ∧
        ∀ x ∈ extra, x.loopKind = true := by
  intro fuel
  induction fuel with
  | zero =>
    intro i acc nd evs
    exact ⟨[], by simp [genLoopGo], by simp⟩
  | succ n ih =>
    intro i acc nd evs
    simp only [genLoopGo]
    split
    · refine ⟨_, rfl, ?_⟩
      intro x hx
      fin_cases hx <;> rfl
    · split
      · refine ⟨_, rfl, ?_⟩
        intro x hx
        fin_cases hx <;> rfl
      · split
        · refine ⟨_, rfl, ?_⟩
          intro x hx
          fin_cases hx <;> rfl
        · obtain ⟨extra, heq, hk⟩ := ih (i + 1) _ (nd + 1)
            (evs ++ [.sampleCall s c, .isEogCall (env.sampleTok i),
                     .tokenToPieceCall (env.sampleTok i), .decodeCall c])
          refine ⟨[Event.sampleCall s c, Event.isEogCall (env.sampleTok i),
                   Event.tokenToPieceCall (env.sampleTok i), Event.decodeCall c] ++ extra,
                  by rw [heq, List.append_assoc], ?_⟩
          intro x hx
          rcases List.mem_append.mp hx with h | h
          · fin_cases h <;> rfl
          · exact hk x h

/-- The text produced by the loop is the given accumulator followed by a
concatenation of pieces produced by the library oracle. -/
theorem genLoopGo_text_pieces (env : GenEnv) (s : Option Ptr) (c : Ptr) :
    ∀ (fuel i : Nat) (acc : String) (nd : Nat) (evs : List Event),
      ∃ l, (genLoopGo env s c fuel i acc nd evs).text = acc ++ sconcat l ∧
        ∀ p ∈ l, ∃ j, p = env.pieceStr j := by
  intro fuel
  induction fuel with
  | zero =>
    intro i acc nd evs
    exact ⟨[], by simp [genLoopGo, sconcat], by simp⟩
  | succ n ih =>
    intro i acc nd evs
    simp only [genLoopGo]
    split
    · exact ⟨[], by simp [sconcat], by simp⟩
    · split
      · exact ⟨[], by simp [sconcat], by simp⟩
      · split
        · by_cases hp : 0 < env.pieceRet i
          · refine ⟨[env.pieceStr i],
              by simp [hp, sconcat, String.append_assoc], ?_⟩
            intro p hmem
            rw [List.mem_singleton] at hmem
            exact ⟨i, hmem⟩
          · exact ⟨[], by simp [hp, sconcat], by simp⟩
        · obtain ⟨l, heq, hl⟩ := ih (i + 1)
            (if 0 < env.pieceRet i then acc ++ env.pieceStr i else acc) (nd + 1)
            (evs ++ [.sampleCall s c, .isEogCall (env.sampleTok i),
                     .tokenToPieceCall (env.sampleTok i), .decodeCall c])
          by_cases hp : 0 < env.pieceRet i
          · refine ⟨env.pieceStr i :: l, ?_, ?_⟩
            · rw [heq]
              simp [hp, sconcat, String.append_assoc]
            · intro p hp2
              rcases List.mem_cons.mp hp2 with h | h
              · exact ⟨i, h⟩
              · exact hl p h
          · refine ⟨l, ?_, hl⟩
            rw [heq]
            simp [hp]

/-- The `nDecoded` of the loop never exceeds the fuel it was started
with. -/
theorem genLoopGo_nDecoded_le_fuel (env : GenEnv) (s : Option Ptr) (c : Ptr)
    (fuel : Nat) :
    (genLoopGo env s c fuel 0 "" 0 []).nDecoded ≤ fuel := by
  have := genLoopGo_nDecoded_le env s c fuel 0 "" 0 []
  omega

/-- `genAfterCtx` never changes the wrapper it is handed. -/
theorem genAfterCtx_wrapper (env : GenEnv) (w : LlamaWrapper) (m c : Ptr) (maxT : Int) :
    (genAfterCtx env w m c maxT).wrapper = some w := by
  unfold genAfterCtx
  repeat first
  | rfl
  | split
  | dsimp only

/-! ## Claim theorems about `nativeInit` -/

/-- C3: nativeInit verifies the model file's existence by opening a file
handle before calling any library function: for every path for which the
file cannot be opened, nativeInit releases the path string and returns the
null handle 0 without initializing the backend or loading a model. -/
theorem c3_fopen_guard (env : InitEnv) (h : env.fopenOk = false) :
    (nativeInit env).handle = none ∧
    (nativeInit env).events = [Event.fopenCall false, Event.releasePathString] ∧
    (∀ e ∈ (nativeInit env).events, e.isLibCall = false) ∧
    ∀ env2 : InitEnv, ∃ rest,
      (nativeInit env2).events = Event.fopenCall env2.fopenOk :: rest := by
  refine ⟨by simp [nativeInit, h], by simp [nativeInit, h], ?_, ?_⟩
  · intro e he
    simp only [nativeInit, h] at he
    fin_cases he <;> rfl
  · intro env2
    rcases env2 with ⟨fo, lm, cc, cs⟩
    cases fo <;> cases lm <;> cases cc <;> exact ⟨_, rfl⟩

theorem c3_witness :
    (nativeInit ⟨false, none, none, 1⟩).handle = none ∧
    (nativeInit ⟨false, none, none, 1⟩).events =
      [Event.fopenCall false, Event.releasePathString] :=
  ⟨(c3_fopen_guard ⟨false, none, none, 1⟩ rfl).1,
   (c3_fopen_guard ⟨false, none, none, 1⟩ rfl).2.1⟩

/-- C4: nativeInit returns an opaque handle as its boundary type: it
returns 0 exactly when initialization fails (file cannot be opened, model
load fails, or context creation fails); on failure after partial progress
it frees what was allocated (the model and/or the backend); on success it
returns a non-null wrapper holding a model, a context, and a sampler. -/
theorem c4_handle_contract (env : InitEnv) :
    ((nativeInit env).handle = none ↔
      env.fopenOk = false ∨ env.loadedModel = none ∨ env.createdCtx = none) ∧
    (env.fopenOk = true → env.loadedModel = none →
      Event.backendFreeCall ∈ (nativeInit env).events) ∧
    (∀ m, env.fopenOk = true → env.loadedModel = some m → env.createdCtx = none →
      Event.modelFreeCall m ∈ (nativeInit env).events ∧
      Event.backendFreeCall ∈ (nativeInit env).events) ∧
    (∀ m c, env.fopenOk = true → env.loadedModel = some m → env.createdCtx = some c →
      (nativeInit env).handle = some ⟨some m, some c, some env.createdSampler⟩) := by
  rcases env with ⟨fo, lm, cc, cs⟩
  cases fo <;> cases lm <;> cases cc <;> simp [nativeInit]

theorem c4_witness :
    (nativeInit ⟨false, none, none, 1⟩).handle = none ∧
    (nativeInit ⟨true, some 1, some 2, 3⟩).handle = some ⟨some 1, some 2, some 3⟩ :=
  ⟨(c4_handle_contract ⟨false, none, none, 1⟩).1.mpr (Or.inl rfl),
   (c4_handle_contract ⟨true, some 1, some 2, 3⟩).2.2.2 1 2 rfl rfl rfl⟩

/-- C5: nativeInit calls the library functions in a fixed sequence:
backend initialization, then model load from file, then context creation
from the model, then sampler-chain construction (temperature, top-k,
top-p, seeded distribution sampler, in that order), and only then builds
and returns the wrapper.  (The path string is released by the JNI right
after the model load, line 80.) -/
theorem c5_fixed_call_sequence (env : InitEnv) (m c : Ptr)
    (hf : env.fopenOk = true) (hm : env.loadedModel = some m)
    (hc : env.createdCtx = some c) :
    (nativeInit env).events =
      [Event.fopenCall true, Event.backendInitCall, Event.modelLoadCall 0 true false,
       Event.releasePathString, Event.ctxCreateCall 2048 512 4 4,
       Event.samplerChainInitCall, Event.samplerAddTemp, Event.samplerAddTopK,
       Event.samplerAddTopP, Event.samplerAddDist] ∧
    (nativeInit env).handle = some ⟨some m, some c, some env.createdSampler⟩ := by
  simp [nativeInit, hf, hm, hc]

theorem c5_witness :
    (nativeInit ⟨true, some 1, some 2, 3⟩).events =
      [Event.fopenCall true, Event.backendInitCall, Event.modelLoadCall 0 true false,
       Event.releasePathString, Event.ctxCreateCall 2048 512 4 4,
       Event.samplerChainInitCall, Event.samplerAddTemp, Event.samplerAddTopK,
       Event.samplerAddTopP, Event.samplerAddDist] :=
  (c5_fixed_call_sequence ⟨true, some 1, some 2, 3⟩ 1 2 rfl rfl rfl).1

/-! ## Claim theorems about `nativeGenerate` and `nativeDestroy` -/

/-- C9: for every call to nativeGenerate with handle 0, or with a handle
whose wrapper has a null model, the call returns the empty string
immediately, performs no library call, and leaves the wrapper's state
unmodified. -/
theorem c9_null_guards (env : GenEnv) (maxT : Int) :
    ((nativeGenerate env none maxT).result = "" ∧
     (nativeGenerate env none maxT).events = [] ∧
     (nativeGenerate env none maxT).wrapper = none) ∧
    ∀ w : LlamaWrapper, w.model = none →
      (nativeGenerate env (some w) maxT).result = "" ∧
      (nativeGenerate env (some w) maxT).events = [] ∧
      (nativeGenerate env (some w) maxT).wrapper = some w := by
  refine ⟨⟨rfl, rfl, rfl⟩, ?_⟩
  intro w hw
  rcases w with ⟨mo, cx, sa⟩
  cases hw
  exact ⟨rfl, rfl, rfl⟩

theorem c9_witness :
    (nativeGenerate ⟨none, false, none, 0, 0, 0,
        fun _ => 0, fun _ => false, fun _ => 0, fun _ => "", fun _ => 0⟩
      (some ⟨none, some 5, some 6⟩) 7).result = "" :=
  ((c9_null_guards _ 7).2 ⟨none, some 5, some 6⟩ rfl).1

/-- C10: nativeDestroy with handle 0 is a no-op; with a non-null handle it
frees each of the sampler, context, and model only if that field is
non-null, then deletes the wrapper and frees the backend, so a wrapper
with any subset of null fields is destroyed without touching the null
fields. -/
theorem c10_destroy_guards (w : LlamaWrapper) :
    nativeDestroy none = [] ∧
    (∀ s, Event.samplerFreeCall s ∈ nativeDestroy (some w) ↔ w.sampler = some s) ∧
    (∀ c, Event.ctxFreeCall c ∈ nativeDestroy (some w) ↔ w.ctx = some c) ∧
    (∀ m, Event.modelFreeCall m ∈ nativeDestroy (some w) ↔ w.model = some m) ∧
    ∃ pre, nativeDestroy (some w) = pre ++ [Event.deleteWrapper, Event.backendFreeCall] := by
  rcases w with ⟨mo, cx, sa⟩
  cases mo <;> cases cx <;> cases sa <;>
    refine ⟨rfl, ?_, ?_, ?_, ⟨_, rfl⟩⟩ <;> intro x <;> simp [nativeDestroy, eq_comm]

theorem c10_witness :
    Event.samplerFreeCall 7 ∈ nativeDestroy (some ⟨none, none, some 7⟩) ∧
    ¬ Event.ctxFreeCall 7 ∈ nativeDestroy (some ⟨none, none, some 7⟩) :=
  ⟨((c10_destroy_guards ⟨none, none, some 7⟩).2.1 7).mpr rfl,
   fun h => by
     have := ((c10_destroy_guards ⟨none, none, some 7⟩).2.2.1 7).mp h
     exact Option.noConfusion this⟩

/-- A concrete generation environment in which every call succeeds except
`llama_token_to_piece` at the second loop iteration, which returns a
negative length. -/
def demoEnv : GenEnv where
  newCtx := some 2
  promptOk := true
  vocab := some 3
  tokenizeLenRet := -1
  nCtxVal := 2048
  decodePromptRet := 0
  sampleTok := fun _ => 7
  eog := fun _ => false
  pieceRet := fun i => if i = 0 then 1 else -1
  pieceStr := fun _ => "a"
  decodeTokRet := fun _ => 0

/-- A concrete wrapper with a model, no context, and a sampler. -/
def demoWrapper : LlamaWrapper := ⟨some 1, none, some 4⟩

/-- C1: on every call to nativeGenerate whose handle is a non-null
wrapper with a non-null model, the wrapper's inference context is
recreated before any tokenization or decoding: the old context (if any)
is freed, `wrapper->ctx` is set to the freshly created context with
n_ctx=2048, n_batch=512, n_threads=4, and if that creation fails the call
returns a placeholder string without generating anything. -/
theorem c1_ctx_recreated (env : GenEnv) (w : LlamaWrapper) (m : Ptr) (maxT : Int)
    (hm : w.model = some m) :
    (∃ rest, (nativeGenerate env (some w) maxT).events =
      (match w.ctx with | some c => [Event.ctxFreeCall c] | none => []) ++
        Event.newCtxCall 2048 512 4 4 :: rest) ∧
    (∀ c, env.newCtx = some c →
      (nativeGenerate env (some w) maxT).wrapper = some { w with ctx := some c }) ∧
    (env.newCtx = none →
      (nativeGenerate env (some w) maxT).result = ctxFailMsg ∧
      (nativeGenerate env (some w) maxT).nDecoded = 0 ∧
      ∀ e ∈ (nativeGenerate env (some w) maxT).events,
        e.loopKind = false ∧ ∀ b, e ≠ Event.tokenizeCall b) := by
  cases hn : env.newCtx with
  | none =>
    refine ⟨⟨[], by simp [nativeGenerate, hm, hn]⟩, ?_, ?_⟩
    · intro c hc
      exact Option.noConfusion hc
    · intro _
      refine ⟨by simp [nativeGenerate, hm, hn], by simp [nativeGenerate, hm, hn], ?_⟩
      intro e he
      simp only [nativeGenerate, hm, hn] at he
      rcases hc : w.ctx with _ | c0 <;> rw [hc] at he <;>
        fin_cases he <;> simp [Event.loopKind]
  | some c =>
    refine ⟨⟨(genAfterCtx env { w with ctx := some c } m c maxT).events,
        by simp [nativeGenerate, hm, hn]⟩, ?_, ?_⟩
    · intro c2 hc2
      injection hc2 with h2
      subst h2
      simp [nativeGenerate, hm, hn, genAfterCtx_wrapper]
    · intro h0
      exact Option.noConfusion h0

theorem c1_witness :
    (nativeGenerate demoEnv (some demoWrapper) 5).wrapper =
      some { demoWrapper with ctx := some 2 } ∧
    ∃ rest, (nativeGenerate demoEnv (some demoWrapper) 5).events =
      Event.newCtxCall 2048 512 4 4 :: rest :=
  ⟨(c1_ctx_recreated demoEnv demoWrapper 1 5 rfl).2.1 2 rfl,
   (c1_ctx_recreated demoEnv demoWrapper 1 5 rfl).1⟩

/-- C2 counterexample: a failure inside the generation loop does not make
the call return the empty string or the placeholder.  In `demoEnv` the
first iteration appends the piece "a" and decodes successfully, and the
second iteration's `llama_token_to_piece` returns a negative length: the
loop breaks and the call returns the partial text "a". -/
theorem c2_counterexample :
    demoEnv.pieceRet 1 < 0 ∧
    (nativeGenerate demoEnv (some demoWrapper) 5).nDecoded = 1 ∧
    (nativeGenerate demoEnv (some demoWrapper) 5).result = "a" ∧
    (nativeGenerate demoEnv (some demoWrapper) 5).result ≠ "" ∧
    (nativeGenerate demoEnv (some demoWrapper) 5).result ≠ ctxFailMsg := by
  refine ⟨by decide, by decide, by decide, by decide, by decide⟩

/-- Any event list whose members are all loop-body events contains no
occurrence of an event that is not a loop-body event. -/
theorem count_eq_zero_of_loopKind {extra : List Event}
    (h : ∀ x ∈ extra, x.loopKind = true) (a : Event) (ha : a.loopKind = false) :
    extra.count a = 0 :=
  List.count_eq_zero.mpr fun hm => by rw [h a hm] at ha; exact Bool.noConfusion ha

/-- The result of `genAfterCtx` is either the empty string or the text of
the generation loop run with the effective token bound. -/
theorem genAfterCtx_result (env : GenEnv) (w : LlamaWrapper) (m c : Ptr) (maxT : Int) :
    (genAfterCtx env w m c maxT).result = "" ∨
    (genAfterCtx env w m c maxT).result =
      (genLoopGo env w.sampler c (genAfterCtx env w m c maxT).effMax.toNat 0 "" 0 []).text := by
  unfold genAfterCtx
  dsimp only
  split
  · exact Or.inl rfl
  · split
    · exact Or.inl rfl
    · split
      · exact Or.inl rfl
      · split
        · exact Or.inl rfl
        · exact Or.inr rfl

/-- `genAfterCtx` never calls `llama_new_context_with_model` and probes
the tokenization length at most once. -/
theorem genAfterCtx_counts (env : GenEnv) (w : LlamaWrapper) (m c : Ptr) (maxT : Int) :
    (genAfterCtx env w m c maxT).events.count (Event.newCtxCall 2048 512 4 4) = 0 ∧
    (genAfterCtx env w m c maxT).events.count (Event.tokenizeCall false) ≤ 1 := by
  unfold genAfterCtx
  dsimp only
  split
  · simp
  · split
    · simp
    · split
      · simp
      · split
        · simp
        · obtain ⟨extra, heq, hk⟩ :=
            genLoopGo_events_shape env w.sampler c
              ((if env.nCtxVal < -env.tokenizeLenRet + maxT
                then env.nCtxVal - -env.tokenizeLenRet - 10 else maxT).toNat) 0 "" 0 []
          rw [List.nil_append] at heq
          simp only [heq, List.count_append]
          constructor
          · simp [count_eq_zero_of_loopKind hk (Event.newCtxCall 2048 512 4 4) rfl]
          · simp [count_eq_zero_of_loopKind hk (Event.tokenizeCall false) rfl]

/-- C2 amended: for every failure detected inside nativeGenerate before
the generation loop (null wrapper, null model, failed context recreation,
null prompt, null vocab, non-positive tokenization result, non-zero
llama_decode return on the prompt), the call returns either the empty
string or the fixed placeholder string; a failure inside the generation
loop breaks the loop and the call returns the partial text accumulated so
far; there is no retry or recovery path (the context is created at most
once and the tokenization length is probed at most once per call). -/
theorem c2_failure_returns (env : GenEnv) (handle : Option LlamaWrapper) (maxT : Int) :
    ((nativeGenerate env handle maxT).result = "" ∨
     (nativeGenerate env handle maxT).result = ctxFailMsg ∨
     ∃ w c, handle = some w ∧ env.newCtx = some c ∧
       (nativeGenerate env handle maxT).result =
         (genLoopGo env w.sampler c
           (nativeGenerate env handle maxT).effMax.toNat 0 "" 0 []).text) ∧
    (nativeGenerate env handle maxT).events.count (Event.newCtxCall 2048 512 4 4) ≤ 1 ∧
    (nativeGenerate env handle maxT).events.count (Event.tokenizeCall false) ≤ 1 := by
  rcases handle with _ | w
  · exact ⟨Or.inl rfl, by simp [nativeGenerate], by simp [nativeGenerate]⟩
  rcases hw : w.model with _ | m
  · have hred : nativeGenerate env (some w) maxT = ⟨"", some w, maxT, 0, []⟩ := by
      rcases w with ⟨mo, cx, sa⟩
      cases hw
      rfl
    rw [hred]
    exact ⟨Or.inl rfl, by simp, by simp⟩
  rcases hn : env.newCtx with _ | c
  · refine ⟨Or.inr (Or.inl (by simp [nativeGenerate, hw, hn])), ?_, ?_⟩ <;>
      simp only [nativeGenerate, hw, hn] <;>
      rcases hc : w.ctx with _ | c0 <;> simp [List.count_cons]
  · have hres := genAfterCtx_result env { w with ctx := some c } m c maxT
    have hcnt := genAfterCtx_counts env { w with ctx := some c } m c maxT
    have hev : (nativeGenerate env (some w) maxT).events =
        (match w.ctx with | some c0 => [Event.ctxFreeCall c0] | none => []) ++
          Event.newCtxCall 2048 512 4 4 ::
            (genAfterCtx env { w with ctx := some c } m c maxT).events := by
      simp [nativeGenerate, hw, hn]
    have hresult : (nativeGenerate env (some w) maxT).result =
        (genAfterCtx env { w with ctx := some c } m c maxT).result := by
      simp [nativeGenerate, hw, hn]
    have heff : (nativeGenerate env (some w) maxT).effMax =
        (genAfterCtx env { w with ctx := some c } m c maxT).effMax := by
      simp [nativeGenerate, hw, hn]
    refine ⟨?_, ?_, ?_⟩
    · rcases hres with h0 | h0
      · exact Or.inl (by rw [hresult, h0])
      · refine Or.inr (Or.inr ⟨w, c, rfl, rfl, ?_⟩)
        rw [hresult, heff, h0]
    · rw [hev]
      rcases hc : w.ctx with _ | c0 <;>
        simp [List.count_cons, List.count_append, hcnt.1]
    · rw [hev]
      rcases hc : w.ctx with _ | c0 <;>
        simp only [List.count_append, List.count_cons, List.count_nil] <;>
        simpa using hcnt.2

theorem c2_amended_witness :
    (nativeGenerate demoEnv none 5).result = "" ∨
    (nativeGenerate demoEnv none 5).result = ctxFailMsg ∨
    ∃ w c, (none : Option LlamaWrapper) = some w ∧ demoEnv.newCtx = some c ∧
      (nativeGenerate demoEnv none 5).result =
        (genLoopGo demoEnv w.sampler c
          (nativeGenerate demoEnv none 5).effMax.toNat 0 "" 0 []).text :=
  (c2_failure_returns demoEnv none 5).1

/-- C6: the shim exposes exactly three entry points — initialize
(nativeInit), generate (nativeGenerate), destroy (nativeDestroy) — and
all computation beyond parameter marshalling, existence checking,
sequencing and string conversion is delegated to the external library:
the text nativeGenerate returns is either empty, the fixed placeholder,
or a concatenation of pieces produced verbatim by the library's
`llama_token_to_piece`. -/
theorem c6_three_entry_points :
    (∀ e : EntryPoint,
      e = EntryPoint.init ∨ e = EntryPoint.generate ∨ e = EntryPoint.destroy) ∧
    ∀ (env : GenEnv) (handle : Option LlamaWrapper) (maxT : Int),
      (nativeGenerate env handle maxT).result = "" ∨
      (nativeGenerate env handle maxT).result = ctxFailMsg ∨
      ∃ l, (nativeGenerate env handle maxT).result = sconcat l ∧
        ∀ p ∈ l, ∃ j, p = env.pieceStr j := by
  constructor
  · intro e
    cases e
    · exact Or.inl rfl
    · exact Or.inr (Or.inl rfl)
    · exact Or.inr (Or.inr rfl)
  · intro env handle maxT
    rcases handle with _ | w
    · exact Or.inl rfl
    rcases hw : w.model with _ | m
    · have hred : nativeGenerate env (some w) maxT = ⟨"", some w, maxT, 0, []⟩ := by
        rcases w with ⟨mo, cx, sa⟩
        cases hw
        rfl
      rw [hred]
      exact Or.inl rfl
    rcases hn : env.newCtx with _ | c
    · exact Or.inr (Or.inl (by simp [nativeGenerate, hw, hn]))
    · have hresult : (nativeGenerate env (some w) maxT).result =
          (genAfterCtx env { w with ctx := some c } m c maxT).result := by
        simp [nativeGenerate, hw, hn]
      rcases genAfterCtx_result env { w with ctx := some c } m c maxT with h0 | h0
      · exact Or.inl (hresult.trans h0)
      · obtain ⟨l, hl, hp⟩ := genLoopGo_text_pieces env
          ({ w with ctx := some c } : LlamaWrapper).sampler c
          ((genAfterCtx env { w with ctx := some c } m c maxT).effMax.toNat) 0 "" 0 []
        refine Or.inr (Or.inr ⟨l, ?_, hp⟩)
        rw [hresult, h0, hl, String.empty_append]

/-- `genAfterCtx` keeps the effective bound at or below the bound it was
given. -/
theorem genAfterCtx_effMax_le (env : GenEnv) (w : LlamaWrapper) (m c : Ptr) (maxT : Int) :
    (genAfterCtx env w m c maxT).effMax ≤ maxT := by
  unfold genAfterCtx
  dsimp only
  repeat' split
  all_goals dsimp only
  all_goals omega

/-- The loop inside `genAfterCtx` never decodes more tokens than the
effective bound allows. -/
theorem genAfterCtx_nDecoded_le (env : GenEnv) (w : LlamaWrapper) (m c : Ptr) (maxT : Int) :
    (genAfterCtx env w m c maxT).nDecoded ≤ (genAfterCtx env w m c maxT).effMax.toNat := by
  unfold genAfterCtx
  dsimp only
  repeat' split
  all_goals dsimp only
  all_goals first
  | exact Nat.zero_le _
  | exact genLoopGo_nDecoded_le_fuel env w.sampler c _

/-- C8: for every call to nativeGenerate with a non-negative max_tokens
argument, the number of tokens decoded in the generation loop never
exceeds max_tokens, and whenever n_prompt_tokens + max_tokens exceeds the
context size n_ctx, the effective limit is reduced to
n_ctx - n_prompt_tokens - 10 before the loop, a value that may be
non-positive, in which case the loop generates no tokens and the empty
string is returned. -/
theorem c8_token_budget (env : GenEnv) (handle : Option LlamaWrapper) (maxT : Int)
    (h : 0 ≤ maxT) :
    (((nativeGenerate env handle maxT).nDecoded : Int) ≤ maxT) ∧
    ∀ w m c v, handle = some w → w.model = some m → env.newCtx = some c →
      env.vocab = some v → env.promptOk = true →
      0 < -env.tokenizeLenRet → env.nCtxVal < -env.tokenizeLenRet + maxT →
      (nativeGenerate env handle maxT).effMax =
        env.nCtxVal - (-env.tokenizeLenRet) - 10 ∧
      ((nativeGenerate env handle maxT).effMax ≤ 0 →
        (nativeGenerate env handle maxT).result = "" ∧
        (nativeGenerate env handle maxT).nDecoded = 0) := by
  constructor
  · have hnat : (nativeGenerate env handle maxT).nDecoded ≤ maxT.toNat := by
      rcases handle with _ | w
      · exact Nat.zero_le _
      rcases hw : w.model with _ | m
      · have hred : nativeGenerate env (some w) maxT = ⟨"", some w, maxT, 0, []⟩ := by
          rcases w with ⟨mo, cx, sa⟩
          cases hw
          rfl
        rw [hred]
        exact Nat.zero_le _
      rcases hn : env.newCtx with _ | c
      · simp [nativeGenerate, hw, hn]
      · have hnd : (nativeGenerate env (some w) maxT).nDecoded =
            (genAfterCtx env { w with ctx := some c } m c maxT).nDecoded := by
          simp [nativeGenerate, hw, hn]
        rw [hnd]
        exact le_trans (genAfterCtx_nDecoded_le env { w with ctx := some c } m c maxT)
          (Int.toNat_le_toNat (genAfterCtx_effMax_le env { w with ctx := some c } m c maxT))
    omega
  · intro w m c v hh hw hn hv hp ht hclamp
    cases hh
    have heff : (nativeGenerate env (some w) maxT).effMax =
        (genAfterCtx env { w with ctx := some c } m c maxT).effMax := by
      simp [nativeGenerate, hw, hn]
    have hresult : (nativeGenerate env (some w) maxT).result =
        (genAfterCtx env { w with ctx := some c } m c maxT).result := by
      simp [nativeGenerate, hw, hn]
    have hnd : (nativeGenerate env (some w) maxT).nDecoded =
        (genAfterCtx env { w with ctx := some c } m c maxT).nDecoded := by
      simp [nativeGenerate, hw, hn]
    have hbranch :
        (genAfterCtx env { w with ctx := some c } m c maxT).effMax =
          env.nCtxVal - (-env.tokenizeLenRet) - 10 ∧
        ((genAfterCtx env { w with ctx := some c } m c maxT).effMax ≤ 0 →
          (genAfterCtx env { w with ctx := some c } m c maxT).result = "" ∧
          (genAfterCtx env { w with ctx := some c } m c maxT).nDecoded = 0) := by
      have h0 : ¬(env.promptOk = false) := by simp [hp]
      have h1 : ¬(-env.tokenizeLenRet ≤ 0) := by omega
      unfold genAfterCtx
      rw [if_neg h0, hv]
      dsimp only
      rw [if_neg h1, if_pos hclamp]
      split
      · exact ⟨rfl, fun _ => ⟨rfl, rfl⟩⟩
      · refine ⟨rfl, fun hle => ?_⟩
        have hz : (env.nCtxVal - -env.tokenizeLenRet - 10).toNat = 0 :=
          Int.toNat_eq_zero.mpr hle
        rw [hz]
        exact ⟨rfl, rfl⟩
    rw [heff, hresult, hnd]
    exact hbranch

/-- A concrete environment in which the clamp makes the effective token
bound negative: n_ctx = 5 and n_prompt_tokens = 3, so max_tokens = 100 is
reduced to 5 - 3 - 10 = -8 and the loop generates nothing. -/
def clampEnv : GenEnv where
  newCtx := some 2
  promptOk := true
  vocab := some 3
  tokenizeLenRet := -3
  nCtxVal := 5
  decodePromptRet := 0
  sampleTok := fun _ => 7
  eog := fun _ => false
  pieceRet := fun _ => 1
  pieceStr := fun _ => "a"
  decodeTokRet := fun _ => 0

theorem c8_witness :
    (((nativeGenerate clampEnv (some ⟨some 1, none, some 4⟩) 100).nDecoded : Int) ≤ 100) ∧
    (nativeGenerate clampEnv (some ⟨some 1, none, some 4⟩) 100).effMax = -8 ∧
    (nativeGenerate clampEnv (some ⟨some 1, none, some 4⟩) 100).result = "" ∧
    (nativeGenerate clampEnv (some ⟨some 1, none, some 4⟩) 100).nDecoded = 0 := by
  have hmain := c8_token_budget clampEnv (some ⟨some 1, none, some 4⟩) 100 (by decide)
  have hb := hmain.2 ⟨some 1, none, some 4⟩ 1 2 3 rfl rfl rfl rfl rfl (by decide) (by decide)
  have hle : (nativeGenerate clampEnv (some ⟨some 1, none, some 4⟩) 100).effMax ≤ 0 := by
    rw [hb.1]
    decide
  refine ⟨hmain.1, ?_, (hb.2 hle).1, (hb.2 hle).2⟩
  rw [hb.1]
  decide

end LlamaAndroid
